import Mathlib

/-! # go-filecoin: command helpers, worker test API, encoding generator, node test setup

A shallow embedding of

* `commands/command_utils.go` (`addressWithDefault`, `waitForMessage`),
* `internal/pkg/testhelpers/mining.go` (`NewFakeWorkerPorcelainAPI`, `PowerStateView`),
* `encoding/gen/encoding_gen.go` (`parseTypeInfo`, `nameIsExported`),
* `internal/app/go-filecoin/node/test/setup.go`
  (`MustCreateNodesWithBootstrap`, `RunCommandInProcess`, `testEmitter`),

followed by the properties established about them.  Go panics are explicit
results of the model, Go `(value, error)` pairs are pairs with an optional
error, and loops are structural recursions over the data they range over.
-/

set_option autoImplicit false

namespace GoFilecoin

/-- How a Go function call ends: by a run-time panic or by returning. -/
inductive Run (α : Type) where
  | panicked
  | returned (a : α)
deriving DecidableEq, Repr

/-! ## `commands/command_utils.go` -/

namespace Commands

/-- A content identifier, as returned by `msg.Cid()`; `c.Equals(d)` is equality. -/
abbrev Cid := Nat

/-- The `types.Address` of this revision is a string type (`return "", err`). -/
abbrev Address := String

/-- Errors are carried by their text. -/
abbrev GoError := String

/-- A `types.Message`.  `cid` is what `msg.Cid()` evaluates to: `none` when the
call returns a non-nil error, `some c` when it returns `c` and a nil error. -/
structure Message where
  body : Nat
  cid : Option Cid
deriving DecidableEq, Repr

/-- A `types.MessageReceipt`. -/
structure MessageReceipt where
  exitCode : Nat
deriving DecidableEq, Repr

/-- A `types.Block`, reduced to the fields `waitForMessage` reads, with `height`
standing for the rest of the header. -/
structure Block where
  height : Nat
  Messages : List Message
  MessageReceipts : List MessageReceipt
deriving DecidableEq, Repr

/-- The arguments of one invocation of the callback `cb`. -/
structure CallbackArgs where
  blk : Block
  msg : Message
  receipt : MessageReceipt
deriving DecidableEq, Repr

/-- How the inner loop `for i, msg := range blk.Messages` ends. -/
inductive ScanResult where
  /-- The loop reached `cb(blk, msg, blk.MessageReceipts[i]); return`. -/
  | found (msg : Message) (receipt : MessageReceipt)
  /-- The index expression `blk.MessageReceipts[i]` was out of range. -/
  | indexPanic (i : Nat)
  /-- The loop ran off the end of `blk.Messages`. -/
  | exhausted
deriving DecidableEq, Repr

/-- The inner loop of `waitForMessage` from index `i` on, `rest` being
`blk.Messages[i:]`.  A message whose `Cid()` fails is skipped (`continue`); on
the first message whose cid equals `msgCid` the receipt is read at the same
index, which panics when the index is not below `len(blk.MessageReceipts)`. -/
def scanMessages (msgCid : Cid) (receipts : List MessageReceipt) :
    Nat → List Message → ScanResult
  | _, [] => ScanResult.exhausted
  | i, msg :: rest =>
    match msg.cid with
    | none => scanMessages msgCid receipts (i + 1) rest
    | some c =>
      if c = msgCid then
        match receipts[i]? with
        | some r => ScanResult.found msg r
        | none => ScanResult.indexPanic i
      else scanMessages msgCid receipts (i + 1) rest

/-- What an execution of the loops of `waitForMessage` did: the callback
invocations in order, whether it ended in a run-time panic, and how many
blocks it received from the channel. -/
structure WaitResult where
  calls : List CallbackArgs
  panicked : Bool
  received : Nat
deriving DecidableEq, Repr

/-- The outer loop `for blkRaw := range ch`, over the blocks the channel yields
before it is closed.  The loop ends when the channel is closed, at the `return`
after the callback, or at a panic. -/
def waitLoop (msgCid : Cid) : List Block → WaitResult
  | [] => { calls := [], panicked := false, received := 0 }
  | blk :: rest =>
    match scanMessages msgCid blk.MessageReceipts 0 blk.Messages with
    | ScanResult.found msg r =>
      { calls := [{ blk := blk, msg := msg, receipt := r }], panicked := false, received := 1 }
    | ScanResult.indexPanic _ => { calls := [], panicked := true, received := 1 }
    | ScanResult.exhausted =>
      let r := waitLoop msgCid rest
      { r with received := r.received + 1 }

/-- A pub/sub topic name. -/
abbrev Topic := String

/-- The identity of a subscription channel. -/
abbrev ChanId := Nat

/-- Modelled from the spec: the subscriber registry of the pub/sub hub
(`BestBlockPubSub`; the hub's own code is a library outside this repository).
The registry is the list of live subscriptions, each a topic and a channel. -/
structure PubSub where
  subs : List (Topic × ChanId)
deriving DecidableEq, Repr

/-- Modelled from the spec: a channel identity not used by any live subscription. -/
def PubSub.freshChan (ps : PubSub) : ChanId :=
  (ps.subs.map Prod.snd).foldr max 0 + 1

/-- Modelled from the spec: `Subscribe(topic)` creates a new channel and
registers it on the topic. -/
def PubSub.Sub (ps : PubSub) (topic : Topic) : PubSub × ChanId :=
  ({ subs := ps.subs ++ [(topic, ps.freshChan)] }, ps.freshChan)

/-- Modelled from the spec: `Unsubscribe` removes the channel from the topic and
leaves every other subscription in place. -/
def PubSub.Unsub (ps : PubSub) (ch : ChanId) (topic : Topic) : PubSub :=
  { subs := ps.subs.filter (fun s => decide (s ≠ (topic, ch))) }

/-- The channels subscribed to a topic. -/
def PubSub.subscribers (ps : PubSub) (topic : Topic) : List ChanId :=
  (ps.subs.filter (fun s => decide (s.1 = topic))).map Prod.snd

/-- The function `waitForMessage(n, msgCid, cb)`.  `BlockTopic` is the constant
`core.BlockTopic`, `hub` is `n.ChainMgr.BestBlockPubSub` and `delivered` is the
sequence of blocks the subscription channel yields until it is closed.  The
deferred `Unsub` runs on every exit of the function, a panic included. -/
def waitForMessage (BlockTopic : Topic) (hub : PubSub) (delivered : List Block)
    (msgCid : Cid) : PubSub × WaitResult :=
  let (hub1, ch) := hub.Sub BlockTopic
  let r := waitLoop msgCid delivered
  (hub1.Unsub ch BlockTopic, r)

/-- The dynamic value of the `rawAddr interface{}` argument of `addressWithDefault`. -/
inductive RawAddr where
  /-- The nil interface (option not given). -/
  | absent
  /-- A value of dynamic type `string`. -/
  | str (s : String)
  /-- A value of any other dynamic type. -/
  | other (tag : Nat)
deriving DecidableEq, Repr

/-- The function `addressWithDefault(rawAddr, n)`.  `ParseAddress` is
`types.ParseAddress` (an error result is `Except.error`), `wallet` is what
`n.Wallet.GetAddresses()` returns.  The result is the Go pair
`(types.Address, error)`. -/
def addressWithDefault (ParseAddress : String → Except GoError Address)
    (rawAddr : RawAddr) (wallet : List Address) : Address × Option GoError :=
  let stringAddr : String :=
    match rawAddr with
    | RawAddr.str s => s
    | _ => ""
  if stringAddr ≠ "" then
    match ParseAddress stringAddr with
    | Except.error err => ("", some err)
    | Except.ok addr => (addr, none)
  else
    match wallet with
    | [] => ("", some "no addresses in local wallet")
    | addr :: _ => (addr, none)

end Commands

/-! ## `internal/pkg/testhelpers/mining.go` -/

namespace TestHelpers

/-- An `address.Address`. -/
abbrev Address := String

/-- A `big.Int`. -/
abbrev BigInt := Int

/-- The conversion `int64(x)` of a `uint64` value: the same 64 bits read as a
two's complement number. -/
def int64OfUint64 (x : Nat) : Int :=
  if x % 2 ^ 64 < 2 ^ 63 then ((x % 2 ^ 64 : Nat) : Int)
  else ((x % 2 ^ 64 : Nat) : Int) - 2 ^ 64

/-- The constructor `abi.NewStoragePower(n int64)`, a `big.NewInt(n)`. -/
def NewStoragePower (n : Int) : BigInt := n

/-- The constant `big.Zero()`. -/
def bigZero : BigInt := 0

/-- A `state.FakeMinerState`. -/
structure FakeMinerState where
  Owner : Address
  Worker : Address
  ClaimedPower : BigInt
  PledgeRequirement : BigInt
  PledgeBalance : BigInt
deriving DecidableEq, Repr

/-- A Go `map[address.Address]V`: a finite map with distinct keys. -/
abbrev AddrMap (V : Type) := AList (fun _ : Address => V)

/-- A `state.FakeStateView`. -/
structure FakeStateView where
  NetworkPower : BigInt
  Miners : AddrMap FakeMinerState

/-- A `consensus.ChainRandomness` implementation, by identity. -/
abbrev ChainRandomness := Nat

/-- A `block.TipSetKey`: the cids of the blocks of a tipset. -/
abbrev TipSetKey := List Nat

/-- The struct `FakeWorkerPorcelainAPI`; `blockTime` is in nanoseconds. -/
structure FakeWorkerPorcelainAPI where
  blockTime : Nat
  stateView : FakeStateView
  rnd : ChainRandomness

/-- The constant `BlockTimeTest = time.Second`. -/
def BlockTimeTest : Nat := 1000000000

/-- The body of the loop `for k, v := range minerToWorker`: one map assignment
`f.stateView.Miners[k] = &state.FakeMinerState{...}`. -/
def setMiner (miners : AddrMap FakeMinerState) (k v : Address) : AddrMap FakeMinerState :=
  miners.insert k
    { Owner := v, Worker := v, ClaimedPower := bigZero,
      PledgeRequirement := bigZero, PledgeBalance := bigZero }

/-- The constructor `NewFakeWorkerPorcelainAPI(rnd, totalPower, minerToWorker)`;
`totalPower` is a `uint64`, taken modulo `2^64`.  The `range` loop visits the
entries of `minerToWorker` in the order of the list of entries. -/
def NewFakeWorkerPorcelainAPI (rnd : ChainRandomness) (totalPower : Nat)
    (minerToWorker : AddrMap Address) : FakeWorkerPorcelainAPI :=
  let f : FakeWorkerPorcelainAPI :=
    { blockTime := BlockTimeTest,
      stateView :=
        { NetworkPower := NewStoragePower (int64OfUint64 totalPower), Miners := ∅ },
      rnd := rnd }
  minerToWorker.entries.foldl
    (fun f e => { f with stateView := { f.stateView with
      Miners := setMiner f.stateView.Miners e.1 e.2 } }) f

/-- The method `PowerStateView(_ block.TipSetKey)`: the receiver after the call,
the returned state view and the returned error (`none` is the nil error). -/
def FakeWorkerPorcelainAPI.PowerStateView (t : FakeWorkerPorcelainAPI) (_head : TipSetKey) :
    FakeWorkerPorcelainAPI × FakeStateView × Option String :=
  (t, t.stateView, none)

end TestHelpers

/-! ## `encoding/gen/encoding_gen.go` -/

namespace Gen

/-- The `reflect.Kind` of a type. -/
inductive Kind where
  | Invalid | Bool | Int | Int8 | Int16 | Int32 | Int64
  | Uint | Uint8 | Uint16 | Uint32 | Uint64 | Uintptr
  | Float32 | Float64 | Complex64 | Complex128
  | Array | Chan | Func | Interface | Map | Ptr | Slice | String | Struct | UnsafePointer
deriving DecidableEq, Repr

/-- The kinds of the types that are neither pointers nor structs. -/
inductive PlainKind where
  | Bool | Int | Int8 | Int16 | Int32 | Int64
  | Uint | Uint8 | Uint16 | Uint32 | Uint64 | Uintptr
  | Float32 | Float64 | Complex64 | Complex128
  | Array | Chan | Func | Interface | Map | Slice | String | UnsafePointer
deriving DecidableEq, Repr

/-- The kind of a type that is neither a pointer nor a struct. -/
def PlainKind.toKind : PlainKind → Kind
  | PlainKind.Bool => Kind.Bool
  | PlainKind.Int => Kind.Int
  | PlainKind.Int8 => Kind.Int8
  | PlainKind.Int16 => Kind.Int16
  | PlainKind.Int32 => Kind.Int32
  | PlainKind.Int64 => Kind.Int64
  | PlainKind.Uint => Kind.Uint
  | PlainKind.Uint8 => Kind.Uint8
  | PlainKind.Uint16 => Kind.Uint16
  | PlainKind.Uint32 => Kind.Uint32
  | PlainKind.Uint64 => Kind.Uint64
  | PlainKind.Uintptr => Kind.Uintptr
  | PlainKind.Float32 => Kind.Float32
  | PlainKind.Float64 => Kind.Float64
  | PlainKind.Complex64 => Kind.Complex64
  | PlainKind.Complex128 => Kind.Complex128
  | PlainKind.Array => Kind.Array
  | PlainKind.Chan => Kind.Chan
  | PlainKind.Func => Kind.Func
  | PlainKind.Interface => Kind.Interface
  | PlainKind.Map => Kind.Map
  | PlainKind.Slice => Kind.Slice
  | PlainKind.String => Kind.String
  | PlainKind.UnsafePointer => Kind.UnsafePointer

/-- A `reflect.Type`: the run-time descriptor of a Go type.  `name` is what
`Name()` returns (empty for an unnamed type); a struct lists its fields, name
and type, in declaration order. -/
inductive RType where
  | plain (name : String) (kind : PlainKind)
  | ptr (name : String) (elem : RType)
  | struct (name : String) (fields : List (String × RType))
deriving Repr

/-- The method `t.Name()`. -/
def RType.Name : RType → String
  | RType.plain name _ => name
  | RType.ptr name _ => name
  | RType.struct name _ => name

/-- The method `t.Kind()`. -/
def RType.Kind : RType → Kind
  | RType.plain _ kind => kind.toKind
  | RType.ptr _ _ => Kind.Ptr
  | RType.struct _ _ => Kind.Struct

/-- The method `t.Elem()` on a pointer type.  It is called on pointer types only;
on the other types of this model, which do not carry an element type, it
panics. -/
def RType.Elem : RType → Run RType
  | RType.ptr _ elem => Run.returned elem
  | _ => Run.panicked

/-- The fields `t.Field(0)`, ..., `t.Field(t.NumField()-1)` of a struct type. -/
def RType.Fields : RType → List (String × RType)
  | RType.struct _ fields => fields
  | _ => []

/-- The type `Mode`, a `uint32`. -/
abbrev Mode := Nat

/-- The constant `defaultMode`. -/
def defaultMode : Mode := 0

/-- The constant `NewTypeStructMode`. -/
def NewTypeStructMode : Mode := 1

/-- The struct `TypeOpt`, over the type `V` of its `Value interface{}` field. -/
structure TypeOptOf (V : Type) where
  Value : V
  Mode : Mode
  GenerateEncode : Bool
  GenerateDecode : Bool
  RegisterType : Bool
deriving Repr

/-- A value of type `interface{}`: nil, a `TypeOpt`, or a value of any other
dynamic type, given by that type and a datum telling values apart. -/
inductive Iface where
  | nil
  | typeOpt (opt : TypeOptOf Iface)
  | other (t : RType) (data : Nat)
deriving Repr

/-- The struct `TypeOpt`. -/
abbrev TypeOpt := TypeOptOf Iface

/-- The zero value of `TypeOpt`, which a bare `var opt TypeOpt` declares. -/
def TypeOpt.zero : TypeOpt :=
  { Value := Iface.nil, Mode := 0, GenerateEncode := false,
    GenerateDecode := false, RegisterType := false }

/-- The descriptor of the struct type `TypeOpt` itself. -/
def typeOptType : RType :=
  RType.struct "TypeOpt"
    [("Value", RType.plain "" PlainKind.Interface),
     ("Mode", RType.plain "Mode" PlainKind.Uint32),
     ("GenerateEncode", RType.plain "bool" PlainKind.Bool),
     ("GenerateDecode", RType.plain "bool" PlainKind.Bool),
     ("RegisterType", RType.plain "bool" PlainKind.Bool)]

/-- The function `reflect.TypeOf(i)`; `none` is the nil `reflect.Type` it
returns for a nil interface value. -/
def TypeOf : Iface → Option RType
  | Iface.nil => none
  | Iface.typeOpt _ => some typeOptType
  | Iface.other t _ => some t

/-- The struct `FieldInfo`; `Type_` is its field `Type`. -/
structure FieldInfo where
  Name : String
  Pointer : Bool
  Type_ : RType
  Pkg : String
  IterLabel : String
deriving Repr

/-- The struct `TypeInfo`; `Type_` is its field `Type`, `none` for the nil
`reflect.Type`. -/
structure TypeInfo where
  Name : String
  Type_ : Option RType
  Fields : List FieldInfo
  Options : TypeOpt
deriving Repr

/-- The error `parseTypeInfo` builds with `fmt.Errorf`, carried by the operand
of its `%T` verb. -/
inductive GenError where
  | unsupportedType (value : Iface)
deriving Repr

/-- The first byte of the UTF-8 encoding of a character. -/
def leadByte (c : Char) : Nat :=
  if c.toNat < 0x80 then c.toNat
  else if c.toNat < 0x800 then 0xC0 + c.toNat / 0x40
  else if c.toNat < 0x10000 then 0xE0 + c.toNat / 0x1000
  else 0xF0 + c.toNat / 0x40000

/-- The function `strings.ToUpper` on a string of one byte `b`, as bytes: an
ASCII lower-case letter is mapped to upper case, any other ASCII byte is kept,
and a byte that is not ASCII (an incomplete UTF-8 sequence) becomes the
encoding of U+FFFD. -/
def toUpperByte (b : Nat) : List Nat :=
  if b < 0x80 then
    if 0x61 ≤ b ∧ b ≤ 0x7A then [b - 0x20] else [b]
  else [0xEF, 0xBF, 0xBD]

/-- The function `nameIsExported(name)`:
`strings.ToUpper(name[0:1]) == name[0:1]`.  The slice expression `name[0:1]` is
the first byte of the string and panics on the empty string. -/
def nameIsExported (name : String) : Run Bool :=
  match name.data with
  | [] => Run.panicked
  | c :: _ => Run.returned (decide (toUpperByte (leadByte c) = [leadByte c]))

/-- The loop `for i := 0; i < t.NumField(); i++` of `parseTypeInfo` over the
fields not yet visited, `out` being `out.Fields` so far. -/
def parseFields (pkg : String) : List (String × RType) → List FieldInfo → Run (List FieldInfo)
  | [], out => Run.returned out
  | f :: rest, out =>
    match nameIsExported f.1 with
    | Run.panicked => Run.panicked
    | Run.returned false => parseFields pkg rest out
    | Run.returned true =>
      let ft := f.2
      let step : Run (RType × Bool) :=
        if ft.Kind = Kind.Ptr then
          match ft.Elem with
          | Run.panicked => Run.panicked
          | Run.returned elem => Run.returned (elem, true)
        else Run.returned (ft, false)
      match step with
      | Run.panicked => Run.panicked
      | Run.returned (ft, pointer) =>
        parseFields pkg rest
          (out ++ [{ Name := "t." ++ f.1, Pointer := pointer, Type_ := ft, Pkg := pkg,
                     IterLabel := "" }])

/-- The function `parseTypeInfo(pkg, i)`, returning the Go pair
`(TypeInfo, error)` unless it panics.

The statement `if opt, ok := i.(TypeOpt); ok { ... } else { ... }` declares a
new variable `opt` whose scope is the whole `if` statement, both branches
included: `optInner` below.  The variable of `var opt TypeOpt`, `optOuter`, is
never assigned and is the one read by `Options: opt` and by the error
message. -/
def parseTypeInfo (pkg : String) (i : Iface) : Run (TypeInfo × Option GenError) :=
  let optOuter : TypeOpt := TypeOpt.zero
  let (t, _optInner) : Option RType × TypeOpt :=
    match i with
    | Iface.typeOpt opt => (TypeOf opt.Value, opt)
    | _ => (TypeOf i, { TypeOpt.zero with Value := i })
  match t with
  | none => Run.panicked
  | some t =>
    let out : TypeInfo := { Name := t.Name, Type_ := none, Fields := [], Options := optOuter }
    match t.Kind with
    | Kind.Struct =>
      match parseFields pkg t.Fields out.Fields with
      | Run.panicked => Run.panicked
      | Run.returned fields => Run.returned ({ out with Fields := fields }, none)
    | _ => Run.returned (out, some (GenError.unsupportedType optOuter.Value))

/-- The `FieldInfo` the description of `parseTypeInfo` calls for, for one field
of a struct: the name prefixed with `t.`, the package, and for a pointer field
the pointed-to type with `Pointer` set. -/
def describedField (pkg : String) (f : String × RType) : FieldInfo :=
  match f.2 with
  | RType.ptr _ elem =>
    { Name := "t." ++ f.1, Pointer := true, Type_ := elem, Pkg := pkg, IterLabel := "" }
  | ft => { Name := "t." ++ f.1, Pointer := false, Type_ := ft, Pkg := pkg, IterLabel := "" }

/-- The field list the description of `parseTypeInfo` calls for: one entry for
each field whose name passes `nameIsExported`, in declaration order. -/
def describedFields (pkg : String) (fields : List (String × RType)) : List FieldInfo :=
  (fields.filter (fun f => decide (nameIsExported f.1 = Run.returned true))).map
    (describedField pkg)

/-- The loop `for _, t := range types` of `WriteToFile`: the `TypeInfo`s handed
to the generator, or the first error of `parseTypeInfo`. -/
def parseAll (pkg : String) : List Iface → List TypeInfo → Run (List TypeInfo × Option GenError)
  | [], tis => Run.returned (tis, none)
  | t :: rest, tis =>
    match parseTypeInfo pkg t with
    | Run.panicked => Run.panicked
    | Run.returned (_, some err) => Run.returned ([], some err)
    | Run.returned (ti, none) => parseAll pkg rest (tis ++ [ti])

end Gen

/-! ## `internal/app/go-filecoin/node/test/setup.go` -/

namespace NodeTest

/-- The width of Go's `uint` and `int` on the 64-bit targets the node supports. -/
def uintBits : Nat := 64

/-- The conversion `int(x)` of a `uint` value. -/
def intOfUint (x : Nat) : Int :=
  if x % 2 ^ uintBits < 2 ^ (uintBits - 1) then ((x % 2 ^ uintBits : Nat) : Int)
  else ((x % 2 ^ uintBits : Nat) : Int) - 2 ^ uintBits

/-- An element of the `[]*node.Node` slice. -/
inductive Node where
  /-- The nil pointer `make` fills the slice with. -/
  | unset
  /-- The node built and started as `bootstrapMiner`. -/
  | bootstrapMiner
  /-- A node built in the loop, given the seed key `int(i+1)`. -/
  | additional (seedKey : Int)
deriving DecidableEq, Repr

/-- The assignment `nodes[k] = v`, which panics when `k` is out of range. -/
def setNode (nodes : List Node) (k : Nat) (v : Node) : Run (List Node) :=
  if k < nodes.length then Run.returned (nodes.set k v) else Run.panicked

/-- The loop `for i := uint(0); i < additionalNodes; i++ { ... nodes[i+1] = node }`. -/
def createAdditional (additionalNodes : Nat) (nodes : List Node) : Run (List Node) :=
  (List.range additionalNodes).foldl
    (fun acc i =>
      match acc with
      | Run.panicked => Run.panicked
      | Run.returned ns =>
        setNode ns ((i + 1) % 2 ^ uintBits) (Node.additional (intOfUint (i + 1))))
    (Run.returned nodes)

/-- The loop `for i := 0; i < len(nodes); i++ { for j := 0; j < i; j++ { ... } }`:
the calls `node.ConnectNodes(t, nodes[i], nodes[j])` it makes, in order, each
given by its pair of indices `(i, j)`. -/
def connectAll (len : Nat) : List (Nat × Nat) :=
  (List.range len).flatMap (fun i => (List.range i).map (fun j => (i, j)))

/-- What `MustCreateNodesWithBootstrap` returns and the connections it made. -/
structure Setup where
  nodes : List Node
  connects : List (Nat × Nat)
deriving DecidableEq, Repr

/-- The size in bytes of one `*node.Node` element on a 64-bit target. -/
def ptrSize : Nat := 8

/-- The expression `make([]*node.Node, len)` for a `uint` length.  The run-time
panics (`makeslice: len out of range`) when the length does not fit an `int` or
when the size of the slice in bytes exceeds `maxAlloc`, the largest allocation
the run-time of the target accepts (`2^48` bytes on linux/amd64); otherwise the
slice holds `len` nil pointers. -/
def makeNodes (maxAlloc : Nat) (len : Nat) : Run (List Node) :=
  if len < 2 ^ (uintBits - 1) ∧ len * ptrSize ≤ maxAlloc then
    Run.returned (List.replicate len Node.unset)
  else Run.panicked

/-- The function `MustCreateNodesWithBootstrap(ctx, t, additionalNodes)` with all
the `require.NoError` checks passing; `additionalNodes` is a `uint`, taken
modulo `2^uintBits`, and `maxAlloc` is the run-time's allocation limit. -/
def MustCreateNodesWithBootstrap (maxAlloc : Nat) (additionalNodes : Nat) : Run Setup :=
  let additionalNodes := additionalNodes % 2 ^ uintBits
  match makeNodes maxAlloc ((1 + additionalNodes) % 2 ^ uintBits) with
  | Run.panicked => Run.panicked
  | Run.returned nodes =>
    match setNode nodes 0 Node.bootstrapMiner with
    | Run.panicked => Run.panicked
    | Run.returned nodes =>
      match createAdditional additionalNodes nodes with
      | Run.panicked => Run.panicked
      | Run.returned nodes =>
        Run.returned { nodes := nodes, connects := connectAll nodes.length }

/-- A value passed as `interface{}`: `none` is nil. -/
abbrev Value := Option Nat

/-- A Go `error`: `none` is nil. -/
abbrev GoErr := Option String

/-- The struct `testEmitter`. -/
structure testEmitter where
  value : Value
  err : GoErr
deriving DecidableEq, Repr

/-- One method call on the emitter. -/
inductive EmitterCall where
  | SetLength (n : Nat)
  | Close
  | CloseWithError (err : GoErr)
  | Emit (value : Value)
deriving DecidableEq, Repr

/-- The effect of one method call on the `testEmitter`. -/
def testEmitter.call (t : testEmitter) : EmitterCall → testEmitter
  | EmitterCall.SetLength _ => t
  | EmitterCall.Close => t
  | EmitterCall.CloseWithError err => { t with err := err }
  | EmitterCall.Emit value => { t with value := value }

/-- The behaviour of a `cmds.Command` on given options and arguments: the error
of `cmds.NewRequest`, the emitter calls `cmd.Run` makes in order, and the error
`cmd.Run` returns. -/
structure Command where
  requestErr : GoErr
  emits : List EmitterCall
  runErr : GoErr
deriving DecidableEq, Repr

/-- The function `RunCommandInProcess(ctx, nd, cmd, optMap, args...)`, returning
the Go pair `(interface{}, error)`. -/
def RunCommandInProcess (cmd : Command) : Value × GoErr :=
  match cmd.requestErr with
  | some e => (none, some e)
  | none =>
    let emitter := cmd.emits.foldl testEmitter.call { value := none, err := none }
    let err := cmd.runErr
    if err ≠ none then (none, err)
    else if emitter.err ≠ none then (none, err)
    else (emitter.value, none)

end NodeTest

/-! ## Properties of `commands/command_utils.go` -/

namespace Commands

/-- The inner loop runs off the end of a list of messages none of which has the
wanted cid. -/
theorem scanMessages_no_match (msgCid : Cid) (receipts : List MessageReceipt)
    (msgs : List Message) (i : Nat)
    (h : ∀ m ∈ msgs, m.cid ≠ some msgCid) :
    scanMessages msgCid receipts i msgs = ScanResult.exhausted := by
  induction msgs generalizing i with
  | nil => rfl
  | cons m rest ih =>
    have hm := h m (List.mem_cons_self _ _)
    have hrest : ∀ x ∈ rest, x.cid ≠ some msgCid :=
      fun x hx => h x (List.mem_cons_of_mem _ hx)
    unfold scanMessages
    cases hc : m.cid with
    | none => exact ih (i + 1) hrest
    | some c =>
      have hne : c ≠ msgCid := fun he => hm (by rw [hc, he])
      simp only [hne, if_false]
      exact ih (i + 1) hrest

/-- The inner loop stops at the first message with the wanted cid and reads the
receipt list at the index of that message. -/
theorem scanMessages_first_match (msgCid : Cid) (receipts : List MessageReceipt)
    (before : List Message) (m : Message) (after : List Message) (i : Nat)
    (hbefore : ∀ x ∈ before, x.cid ≠ some msgCid) (hm : m.cid = some msgCid) :
    scanMessages msgCid receipts i (before ++ m :: after) =
      match receipts[i + before.length]? with
      | some r => ScanResult.found m r
      | none => ScanResult.indexPanic (i + before.length) := by
  induction before generalizing i with
  | nil =>
    simp only [List.nil_append, List.length_nil, Nat.add_zero]
    unfold scanMessages
    simp only [hm, if_true]
  | cons x rest ih =>
    have hx := hbefore x (List.mem_cons_self _ _)
    have hrest : ∀ y ∈ rest, y.cid ≠ some msgCid :=
      fun y hy => hbefore y (List.mem_cons_of_mem _ hy)
    have step : scanMessages msgCid receipts i (x :: (rest ++ m :: after)) =
        scanMessages msgCid receipts (i + 1) (rest ++ m :: after) := by
      conv => lhs; unfold scanMessages
      cases hc : x.cid with
      | none => rfl
      | some c =>
        have hne : c ≠ msgCid := fun he => hx (by rw [hc, he])
        simp only [hne, if_false]
    rw [List.cons_append, step, ih (i + 1) hrest]
    have e : i + 1 + rest.length = i + (x :: rest).length := by
      simp only [List.length_cons]; omega
    rw [e]

/-- When no delivered block holds a message with the wanted cid, the wait
receives every block, never invokes the callback and does not panic. -/
theorem waitLoop_no_match (msgCid : Cid) (delivered : List Block)
    (h : ∀ blk ∈ delivered, ∀ m ∈ blk.Messages, m.cid ≠ some msgCid) :
    waitLoop msgCid delivered =
      { calls := [], panicked := false, received := delivered.length } := by
  induction delivered with
  | nil => rfl
  | cons blk rest ih =>
    have hb := h blk (List.mem_cons_self _ _)
    have hrest : ∀ b ∈ rest, ∀ m ∈ b.Messages, m.cid ≠ some msgCid :=
      fun b hb2 => h b (List.mem_cons_of_mem _ hb2)
    unfold waitLoop
    rw [scanMessages_no_match msgCid blk.MessageReceipts blk.Messages 0 hb]
    simp only [ih hrest, List.length_cons]

/-- The wait skips the blocks without a matching message and ends at the first
block with one: there it invokes the callback once, with that block, its first
matching message and the receipt at the same index, when the block has a
receipt at that index, and panics when it has none. -/
theorem waitLoop_first_match (msgCid : Cid) (earlier : List Block) (blk : Block)
    (later : List Block) (before : List Message) (m : Message) (after : List Message)
    (hearlier : ∀ b ∈ earlier, ∀ x ∈ b.Messages, x.cid ≠ some msgCid)
    (hmsgs : blk.Messages = before ++ m :: after)
    (hbefore : ∀ x ∈ before, x.cid ≠ some msgCid) (hm : m.cid = some msgCid) :
    waitLoop msgCid (earlier ++ blk :: later) =
      match blk.MessageReceipts[before.length]? with
      | some r =>
        { calls := [{ blk := blk, msg := m, receipt := r }], panicked := false,
          received := earlier.length + 1 }
      | none => { calls := [], panicked := true, received := earlier.length + 1 } := by
  induction earlier with
  | nil =>
    simp only [List.nil_append, List.length_nil, Nat.zero_add]
    unfold waitLoop
    rw [hmsgs, scanMessages_first_match msgCid blk.MessageReceipts before m after 0 hbefore hm]
    simp only [Nat.zero_add]
    cases blk.MessageReceipts[before.length]? <;> rfl
  | cons b rest ih =>
    have hb := hearlier b (List.mem_cons_self _ _)
    have hrest : ∀ c ∈ rest, ∀ x ∈ c.Messages, x.cid ≠ some msgCid :=
      fun c hc => hearlier c (List.mem_cons_of_mem _ hc)
    rw [List.cons_append]
    unfold waitLoop
    rw [scanMessages_no_match msgCid b.MessageReceipts b.Messages 0 hb]
    simp only [ih hrest, List.length_cons]
    cases blk.MessageReceipts[before.length]? <;> rfl

/-- A list either has no element with a given property or splits at the first
element that has it. -/
theorem split_at_first {α : Type} (p : α → Prop) (l : List α) :
    (∀ x ∈ l, ¬ p x) ∨
    ∃ a x b, l = a ++ x :: b ∧ (∀ y ∈ a, ¬ p y) ∧ p x := by
  induction l with
  | nil => exact Or.inl (fun x hx => by cases hx)
  | cons h t ih =>
    by_cases hp : p h
    · exact Or.inr ⟨[], h, t, rfl, fun y hy => (by cases hy), hp⟩
    · rcases ih with hnone | ⟨a, x, b, hl, ha, hx⟩
      · refine Or.inl (fun x hx => ?_)
        rcases List.mem_cons.mp hx with rfl | hxt
        · exact hp
        · exact hnone x hxt
      · refine Or.inr ⟨h :: a, x, b, by rw [hl, List.cons_append], ?_, hx⟩
        intro y hy
        rcases List.mem_cons.mp hy with rfl | hya
        · exact hp
        · exact ha y hya

/-- On delivered blocks that all have a receipt for each of their messages, the
wait does not panic, invokes the callback exactly once when some delivered
block holds a message with the wanted cid, and never otherwise. -/
theorem waitLoop_with_receipts (msgCid : Cid) (delivered : List Block)
    (hwf : ∀ blk ∈ delivered, blk.Messages.length ≤ blk.MessageReceipts.length) :
    (waitLoop msgCid delivered).panicked = false ∧
    ((∃ blk ∈ delivered, ∃ m ∈ blk.Messages, m.cid = some msgCid) →
      (waitLoop msgCid delivered).calls.length = 1) ∧
    ((¬ ∃ blk ∈ delivered, ∃ m ∈ blk.Messages, m.cid = some msgCid) →
      (waitLoop msgCid delivered).calls = []) := by
  rcases split_at_first (fun blk : Block => ∃ m ∈ blk.Messages, m.cid = some msgCid) delivered
    with hnone | ⟨earlier, blk, later, hsplit, hearlier, hblk⟩
  · have hno : ∀ blk ∈ delivered, ∀ m ∈ blk.Messages, m.cid ≠ some msgCid :=
      fun blk hb m hm hc => hnone blk hb ⟨m, hm, hc⟩
    rw [waitLoop_no_match msgCid delivered hno]
    refine ⟨rfl, ?_, fun _ => rfl⟩
    rintro ⟨blk, hb, m, hm, hc⟩
    exact absurd hc (hno blk hb m hm)
  · have hno : ∀ b ∈ earlier, ∀ x ∈ b.Messages, x.cid ≠ some msgCid :=
      fun b hb x hx hc => hearlier b hb ⟨x, hx, hc⟩
    rcases split_at_first (fun m : Message => m.cid = some msgCid) blk.Messages
      with hnone | ⟨before, m, after, hmsgs, hbefore, hm⟩
    · obtain ⟨m, hm, hc⟩ := hblk
      exact absurd hc (hnone m hm)
    · have hmem : blk ∈ delivered := by
        rw [hsplit]
        exact List.mem_append_right _ (List.mem_cons_self _ _)
      have hlen : before.length < blk.MessageReceipts.length := by
        have h1 := hwf blk hmem
        have h2 : blk.Messages.length = before.length + (after.length + 1) := by
          rw [hmsgs, List.length_append, List.length_cons]
        omega
      rw [hsplit, waitLoop_first_match msgCid earlier blk later before m after hno hmsgs
        hbefore hm, List.getElem?_eq_getElem hlen]
      refine ⟨rfl, fun _ => rfl, fun hnot => ?_⟩
      have hin : m ∈ blk.Messages := by
        rw [hmsgs]
        exact List.mem_append_right _ (List.mem_cons_self _ _)
      have hin2 : blk ∈ earlier ++ blk :: later :=
        List.mem_append_right _ (List.mem_cons_self _ _)
      exact absurd ⟨blk, hin2, m, hin, hm⟩ hnot

/-- Blocks that have a receipt for each of their messages have one at the index
of every message. -/
theorem receipt_at_match_of_lengths (delivered : List Block)
    (hwf : ∀ blk ∈ delivered, blk.Messages.length ≤ blk.MessageReceipts.length)
    (earlier : List Block) (blk : Block) (later : List Block)
    (before : List Message) (m : Message) (after : List Message)
    (hsplit : delivered = earlier ++ blk :: later)
    (hmsgs : blk.Messages = before ++ m :: after) :
    before.length < blk.MessageReceipts.length := by
  have hmem : blk ∈ delivered := by
    rw [hsplit]
    exact List.mem_append_right _ (List.mem_cons_self _ _)
  have h1 := hwf blk hmem
  have h2 : blk.Messages.length = before.length + (after.length + 1) := by
    rw [hmsgs, List.length_append, List.length_cons]
  omega

/-- C1, the claim as stated fails: the only delivered block holds a message whose
cid is computed without error and equals `msgCid`, and `waitForMessage` does
not invoke the callback, because the block has no receipt at the index of the
message and reading `blk.MessageReceipts[i]` panics before the call. -/
theorem waitForMessage_match_not_reported :
    (∃ blk ∈ [({ height := 1, Messages := [{ body := 10, cid := some 7 }],
                 MessageReceipts := [] } : Block)],
      ∃ m ∈ blk.Messages, m.cid = some 7) ∧
    (waitForMessage "blocks" { subs := [] }
      [{ height := 1, Messages := [{ body := 10, cid := some 7 }], MessageReceipts := [] }]
      7).2 = { calls := [], panicked := true, received := 1 } := by
  decide

/-- C1, amended: provided the earliest delivered block that holds a message whose
cid is computed without error and equals `msgCid` has a receipt at the index of
its first such message, `waitForMessage` invokes the callback exactly once if
some delivered block holds such a message and never otherwise; the arguments of
the call are the earliest such block, the lowest-index matching message of that
block and the receipt at the same index, and the blocks delivered after that
one are not received. -/
theorem waitForMessage_reports_first_match (BlockTopic : Topic) (hub : PubSub)
    (delivered : List Block) (msgCid : Cid)
    (hrec : ∀ (earlier : List Block) (blk : Block) (later : List Block)
      (before : List Message) (m : Message) (after : List Message),
      delivered = earlier ++ blk :: later →
      (∀ b ∈ earlier, ∀ x ∈ b.Messages, x.cid ≠ some msgCid) →
      blk.Messages = before ++ m :: after →
      (∀ x ∈ before, x.cid ≠ some msgCid) → m.cid = some msgCid →
      before.length < blk.MessageReceipts.length) :
    ((∃ blk ∈ delivered, ∃ m ∈ blk.Messages, m.cid = some msgCid) →
      (waitForMessage BlockTopic hub delivered msgCid).2.calls.length = 1) ∧
    ((¬ ∃ blk ∈ delivered, ∃ m ∈ blk.Messages, m.cid = some msgCid) →
      (waitForMessage BlockTopic hub delivered msgCid).2.calls = [] ∧
      (waitForMessage BlockTopic hub delivered msgCid).2.received = delivered.length) ∧
    (∀ (earlier : List Block) (blk : Block) (later : List Block)
      (before : List Message) (m : Message) (after : List Message),
      delivered = earlier ++ blk :: later →
      (∀ b ∈ earlier, ∀ x ∈ b.Messages, x.cid ≠ some msgCid) →
      blk.Messages = before ++ m :: after →
      (∀ x ∈ before, x.cid ≠ some msgCid) → m.cid = some msgCid →
      ∃ receipt, blk.MessageReceipts[before.length]? = some receipt ∧
        (waitForMessage BlockTopic hub delivered msgCid).2.calls
          = [{ blk := blk, msg := m, receipt := receipt }] ∧
        (waitForMessage BlockTopic hub delivered msgCid).2.received = earlier.length + 1) ∧
    (waitForMessage BlockTopic hub delivered msgCid).2.panicked = false := by
  have hw : (waitForMessage BlockTopic hub delivered msgCid).2 = waitLoop msgCid delivered := rfl
  rw [hw]
  have hfirst : ∀ (earlier : List Block) (blk : Block) (later : List Block)
      (before : List Message) (m : Message) (after : List Message),
      delivered = earlier ++ blk :: later →
      (∀ b ∈ earlier, ∀ x ∈ b.Messages, x.cid ≠ some msgCid) →
      blk.Messages = before ++ m :: after →
      (∀ x ∈ before, x.cid ≠ some msgCid) → m.cid = some msgCid →
      ∃ receipt, blk.MessageReceipts[before.length]? = some receipt ∧
        waitLoop msgCid delivered =
          { calls := [{ blk := blk, msg := m, receipt := receipt }], panicked := false,
            received := earlier.length + 1 } := by
    intro earlier blk later before m after hsplit hearlier hmsgs hbefore hm
    have hlen := hrec earlier blk later before m after hsplit hearlier hmsgs hbefore hm
    refine ⟨blk.MessageReceipts[before.length], List.getElem?_eq_getElem hlen, ?_⟩
    rw [hsplit, waitLoop_first_match msgCid earlier blk later before m after hearlier hmsgs
      hbefore hm, List.getElem?_eq_getElem hlen]
  rcases split_at_first (fun blk : Block => ∃ m ∈ blk.Messages, m.cid = some msgCid) delivered
    with hnone | ⟨earlier, blk, later, hsplit, hearlier, hblk⟩
  · have hno : ∀ blk ∈ delivered, ∀ m ∈ blk.Messages, m.cid ≠ some msgCid :=
      fun blk hb m hm hc => hnone blk hb ⟨m, hm, hc⟩
    have hex : ¬ ∃ blk ∈ delivered, ∃ m ∈ blk.Messages, m.cid = some msgCid := by
      rintro ⟨blk, hb, m, hm, hc⟩
      exact hno blk hb m hm hc
    refine ⟨fun h => absurd h hex, fun _ => ?_, ?_, ?_⟩
    · rw [waitLoop_no_match msgCid delivered hno]
      exact ⟨rfl, rfl⟩
    · intro earlier blk later before m after hsplit hearlier hmsgs hbefore hm
      obtain ⟨receipt, hr, hres⟩ :=
        hfirst earlier blk later before m after hsplit hearlier hmsgs hbefore hm
      exact ⟨receipt, hr, by rw [hres], by rw [hres]⟩
    · rw [waitLoop_no_match msgCid delivered hno]
  · have hno : ∀ b ∈ earlier, ∀ x ∈ b.Messages, x.cid ≠ some msgCid :=
      fun b hb x hx hc => hearlier b hb ⟨x, hx, hc⟩
    have hex : ∃ blk ∈ delivered, ∃ m ∈ blk.Messages, m.cid = some msgCid :=
      ⟨blk, by rw [hsplit]; exact List.mem_append_right _ (List.mem_cons_self _ _), hblk⟩
    rcases split_at_first (fun m : Message => m.cid = some msgCid) blk.Messages
      with hnone | ⟨before, m, after, hmsgs, hbefore, hm⟩
    · obtain ⟨m, hm, hc⟩ := hblk
      exact absurd hc (hnone m hm)
    · obtain ⟨receipt, _, hres⟩ :=
        hfirst earlier blk later before m after hsplit hno hmsgs hbefore hm
      refine ⟨fun _ => by rw [hres]; rfl, fun h => absurd hex h, ?_, by rw [hres]⟩
      intro earlier2 blk2 later2 before2 m2 after2 hsplit2 hearlier2 hmsgs2 hbefore2 hm2
      obtain ⟨receipt2, hr2, hres2⟩ :=
        hfirst earlier2 blk2 later2 before2 m2 after2 hsplit2 hearlier2 hmsgs2 hbefore2 hm2
      exact ⟨receipt2, hr2, by rw [hres2], by rw [hres2]⟩

/-- C1, amended, on three delivered blocks: the first has no matching message
(one of its cids cannot be computed), the second and the third both hold the
wanted cid 7.  The callback gets the second block, its message at index 1 (the
first of its two matching messages) and the receipt at index 1, and the third
block is not received. -/
theorem waitForMessage_reports_first_match_witness :
    (waitForMessage "blocks" { subs := [("blocks", 1)] }
      [{ height := 1, Messages := [{ body := 10, cid := none }, { body := 11, cid := some 3 }],
         MessageReceipts := [{ exitCode := 0 }, { exitCode := 0 }] },
       { height := 2,
         Messages := [{ body := 20, cid := some 5 }, { body := 21, cid := some 7 },
                      { body := 22, cid := some 7 }],
         MessageReceipts := [{ exitCode := 0 }, { exitCode := 1 }, { exitCode := 2 }] },
       { height := 3, Messages := [{ body := 30, cid := some 7 }],
         MessageReceipts := [{ exitCode := 3 }] }]
      7).2.calls.length = 1 ∧
    ∃ receipt,
      ([{ exitCode := 0 }, { exitCode := 1 }, { exitCode := 2 }] : List MessageReceipt)[1]?
        = some receipt ∧
      (waitForMessage "blocks" { subs := [("blocks", 1)] }
        [{ height := 1, Messages := [{ body := 10, cid := none }, { body := 11, cid := some 3 }],
           MessageReceipts := [{ exitCode := 0 }, { exitCode := 0 }] },
         { height := 2,
           Messages := [{ body := 20, cid := some 5 }, { body := 21, cid := some 7 },
                        { body := 22, cid := some 7 }],
           MessageReceipts := [{ exitCode := 0 }, { exitCode := 1 }, { exitCode := 2 }] },
         { height := 3, Messages := [{ body := 30, cid := some 7 }],
           MessageReceipts := [{ exitCode := 3 }] }]
        7).2.calls
        = [{ blk :=
              { height := 2,
                Messages := [{ body := 20, cid := some 5 }, { body := 21, cid := some 7 },
                             { body := 22, cid := some 7 }],
                MessageReceipts := [{ exitCode := 0 }, { exitCode := 1 }, { exitCode := 2 }] },
             msg := { body := 21, cid := some 7 }, receipt := receipt }] ∧
      (waitForMessage "blocks" { subs := [("blocks", 1)] }
        [{ height := 1, Messages := [{ body := 10, cid := none }, { body := 11, cid := some 3 }],
           MessageReceipts := [{ exitCode := 0 }, { exitCode := 0 }] },
         { height := 2,
           Messages := [{ body := 20, cid := some 5 }, { body := 21, cid := some 7 },
                        { body := 22, cid := some 7 }],
           MessageReceipts := [{ exitCode := 0 }, { exitCode := 1 }, { exitCode := 2 }] },
         { height := 3, Messages := [{ body := 30, cid := some 7 }],
           MessageReceipts := [{ exitCode := 3 }] }]
        7).2.received = 1 + 1 :=
  ⟨(waitForMessage_reports_first_match "blocks" { subs := [("blocks", 1)] } _ 7
      (fun earlier blk later before m after hsplit _ hmsgs _ _ =>
        receipt_at_match_of_lengths _ (by decide) earlier blk later before m after
          hsplit hmsgs)).1 (by decide),
   (waitForMessage_reports_first_match "blocks" { subs := [("blocks", 1)] } _ 7
      (fun earlier blk later before m after hsplit _ hmsgs _ _ =>
        receipt_at_match_of_lengths _ (by decide) earlier blk later before m after
          hsplit hmsgs)).2.2.1
      [{ height := 1, Messages := [{ body := 10, cid := none }, { body := 11, cid := some 3 }],
         MessageReceipts := [{ exitCode := 0 }, { exitCode := 0 }] }]
      { height := 2,
        Messages := [{ body := 20, cid := some 5 }, { body := 21, cid := some 7 },
                     { body := 22, cid := some 7 }],
        MessageReceipts := [{ exitCode := 0 }, { exitCode := 1 }, { exitCode := 2 }] }
      [{ height := 3, Messages := [{ body := 30, cid := some 7 }],
         MessageReceipts := [{ exitCode := 3 }] }]
      [{ body := 20, cid := some 5 }] { body := 21, cid := some 7 }
      [{ body := 22, cid := some 7 }]
      rfl (by decide) rfl (by decide) rfl⟩

/-- C2: `waitForMessage` panics on a delivered block whose `MessageReceipts` is
shorter than its `Messages`: the first message has no computable cid and is
skipped, the second matches at index 1, and the only receipt is at index 0. -/
theorem waitForMessage_index_out_of_range :
    scanMessages 7 [{ exitCode := 0 }] 0
        [{ body := 10, cid := none }, { body := 11, cid := some 7 }]
      = ScanResult.indexPanic 1 ∧
    (waitForMessage "blocks" { subs := [] }
      [{ height := 1,
         Messages := [{ body := 10, cid := none }, { body := 11, cid := some 7 }],
         MessageReceipts := [{ exitCode := 0 }] }]
      7).2.panicked = true := by
  decide

/-- Every live subscription has a channel below the fresh one. -/
theorem PubSub.lt_freshChan (ps : PubSub) (s : Topic × ChanId) (h : s ∈ ps.subs) :
    s.2 < ps.freshChan := by
  unfold PubSub.freshChan
  have key : ∀ (l : List (Topic × ChanId)), s ∈ l →
      s.2 ≤ (l.map Prod.snd).foldr max 0 := by
    intro l
    induction l with
    | nil => intro hs; cases hs
    | cons x rest ih =>
      intro hs
      simp only [List.map_cons, List.foldr_cons]
      rcases List.mem_cons.mp hs with rfl | hr
      · exact Nat.le_max_left _ _
      · exact Nat.le_trans (ih hr) (Nat.le_max_right _ _)
  exact Nat.lt_succ_of_le (key ps.subs h)

/-- Subscribing and then unsubscribing the new channel restores the registry. -/
theorem PubSub.Unsub_Sub (ps : PubSub) (topic : Topic) :
    (ps.Sub topic).1.Unsub (ps.Sub topic).2 topic = ps := by
  have hkeep : ∀ s ∈ ps.subs, decide (s ≠ (topic, ps.freshChan)) = true := by
    intro s hs
    have hlt := PubSub.lt_freshChan ps s hs
    apply decide_eq_true
    intro he
    rw [he] at hlt
    exact Nat.lt_irrefl _ hlt
  cases ps with
  | mk subs =>
    simp only [PubSub.Sub, PubSub.Unsub, List.filter_append]
    have h1 : subs.filter (fun s => decide (s ≠ (topic, PubSub.freshChan { subs := subs })))
        = subs := List.filter_eq_self.mpr hkeep
    rw [h1]
    simp

/-- C3: `waitForMessage` leaves the subscriber registry as it found it, whatever
blocks are delivered and however the wait ends (callback invoked, channel
closed, or panic): the registry after the call is the registry before it, so on
every topic the subscribers are the same and no other subscription is touched;
and the subscription it held in between was on `BlockTopic` with a channel no
other subscriber had. -/
theorem waitForMessage_restores_subscribers (BlockTopic : Topic) (hub : PubSub)
    (delivered : List Block) (msgCid : Cid) :
    (waitForMessage BlockTopic hub delivered msgCid).1 = hub ∧
    (∀ topic, (waitForMessage BlockTopic hub delivered msgCid).1.subscribers topic
        = hub.subscribers topic) ∧
    (hub.Sub BlockTopic).1.subs = hub.subs ++ [(BlockTopic, (hub.Sub BlockTopic).2)] ∧
    (∀ topic, (hub.Sub BlockTopic).2 ∉ hub.subscribers topic) := by
  have h : (waitForMessage BlockTopic hub delivered msgCid).1 = hub :=
    PubSub.Unsub_Sub hub BlockTopic
  refine ⟨h, fun topic => by rw [h], rfl, ?_⟩
  intro topic hmem
  unfold PubSub.subscribers at hmem
  obtain ⟨s, hs, hsnd⟩ := List.mem_map.mp hmem
  have hlt := PubSub.lt_freshChan hub s (List.mem_filter.mp hs).1
  rw [hsnd] at hlt
  exact Nat.lt_irrefl _ hlt

/-- C9: `addressWithDefault` returns the parsed address for a non-empty string
that parses; for a value that is not a string or is the empty string it returns
the first wallet address; it fails exactly when a non-empty string is rejected
by `ParseAddress` (whatever the wallet holds) or the argument is absent or empty
and the wallet has no addresses; and on every failure the address is empty. -/
theorem addressWithDefault_spec (ParseAddress : String → Except GoError Address)
    (rawAddr : RawAddr) (wallet : List Address) :
    (∀ s addr, rawAddr = RawAddr.str s → s ≠ "" → ParseAddress s = Except.ok addr →
      addressWithDefault ParseAddress rawAddr wallet = (addr, none)) ∧
    (∀ first others, (∀ s, rawAddr = RawAddr.str s → s = "") → wallet = first :: others →
      addressWithDefault ParseAddress rawAddr wallet = (first, none)) ∧
    (∀ s err, rawAddr = RawAddr.str s → s ≠ "" → ParseAddress s = Except.error err →
      ∀ wallet2, addressWithDefault ParseAddress rawAddr wallet2 = ("", some err)) ∧
    ((addressWithDefault ParseAddress rawAddr wallet).2 ≠ none ↔
      ((∃ s err, rawAddr = RawAddr.str s ∧ s ≠ "" ∧ ParseAddress s = Except.error err) ∨
       ((∀ s, rawAddr = RawAddr.str s → s = "") ∧ wallet = []))) ∧
    ((addressWithDefault ParseAddress rawAddr wallet).2 ≠ none →
      (addressWithDefault ParseAddress rawAddr wallet).1 = "") := by
  refine ⟨?_, ?_, ?_, ?_, ?_⟩
  · intro s addr hr hs hp
    subst hr
    simp [addressWithDefault, hs, hp]
  · intro first others hraw hw
    subst hw
    cases rawAddr with
    | str s =>
      have hs := hraw s rfl
      subst hs
      simp [addressWithDefault]
    | absent => simp [addressWithDefault]
    | other tag => simp [addressWithDefault]
  · intro s err hr hs hp wallet2
    subst hr
    simp [addressWithDefault, hs, hp]
  · cases rawAddr with
    | absent => cases wallet <;> simp [addressWithDefault]
    | other tag => cases wallet <;> simp [addressWithDefault]
    | str s =>
      by_cases hs : s = ""
      · subst hs
        cases wallet <;> simp [addressWithDefault]
      · cases hp : ParseAddress s with
        | error err => simp [addressWithDefault, hs, hp]
        | ok addr => simp [addressWithDefault, hs, hp]
  · cases rawAddr with
    | absent => cases wallet <;> simp [addressWithDefault]
    | other tag => cases wallet <;> simp [addressWithDefault]
    | str s =>
      by_cases hs : s = ""
      · subst hs
        cases wallet <;> simp [addressWithDefault]
      · cases hp : ParseAddress s with
        | error err => simp [addressWithDefault, hs, hp]
        | ok addr => simp [addressWithDefault, hs, hp]

/-- C9 on a parser accepting only `fcqabc`: the accepted string is returned, an
absent argument yields the first wallet address, and a rejected string fails
with the empty address although the wallet has addresses. -/
theorem addressWithDefault_spec_witness :
    addressWithDefault
        (fun s => if s = "fcqabc" then Except.ok s else Except.error "bad address")
        (RawAddr.str "fcqabc") ["fcqw1"] = ("fcqabc", none) ∧
    addressWithDefault
        (fun s => if s = "fcqabc" then Except.ok s else Except.error "bad address")
        RawAddr.absent ["fcqw1", "fcqw2"] = ("fcqw1", none) ∧
    addressWithDefault
        (fun s => if s = "fcqabc" then Except.ok s else Except.error "bad address")
        (RawAddr.str "zzz") ["fcqw1"] = ("", some "bad address") :=
  ⟨(addressWithDefault_spec _ (RawAddr.str "fcqabc") ["fcqw1"]).1 "fcqabc" "fcqabc" rfl
      (by decide) (by simp),
   (addressWithDefault_spec _ RawAddr.absent ["fcqw1", "fcqw2"]).2.1 "fcqw1" ["fcqw2"]
      (fun s hs => by cases hs) rfl,
   (addressWithDefault_spec _ (RawAddr.str "zzz") ["fcqw1"]).2.2.1 "zzz" "bad address" rfl
      (by decide) (by simp) ["fcqw1"]⟩

end Commands

/-! ## Properties of `internal/pkg/testhelpers/mining.go` -/

namespace TestHelpers

/-- The miner state `NewFakeWorkerPorcelainAPI` stores for a worker address. -/
theorem setMiner_lookup (miners : AddrMap FakeMinerState) (k v a : Address) :
    (setMiner miners k v).lookup a =
      if a = k then
        some { Owner := v, Worker := v, ClaimedPower := 0, PledgeRequirement := 0,
               PledgeBalance := 0 }
      else miners.lookup a := by
  unfold setMiner bigZero
  by_cases h : a = k
  · subst h
    simp only [if_true]
    exact AList.lookup_insert miners
  · simp only [h, if_false]
    exact AList.lookup_insert_ne h

/-- The `range` loop of `NewFakeWorkerPorcelainAPI` changes neither the block
time, nor the network power, nor the randomness source. -/
theorem rangeLoop_frame (entries : List (Sigma fun _ : Address => Address))
    (f : FakeWorkerPorcelainAPI) :
    (entries.foldl
      (fun f e => { f with stateView := { f.stateView with
        Miners := setMiner f.stateView.Miners e.1 e.2 } }) f).blockTime = f.blockTime ∧
    (entries.foldl
      (fun f e => { f with stateView := { f.stateView with
        Miners := setMiner f.stateView.Miners e.1 e.2 } }) f).stateView.NetworkPower
      = f.stateView.NetworkPower ∧
    (entries.foldl
      (fun f e => { f with stateView := { f.stateView with
        Miners := setMiner f.stateView.Miners e.1 e.2 } }) f).rnd = f.rnd := by
  induction entries generalizing f with
  | nil => exact ⟨rfl, rfl, rfl⟩
  | cons e rest ih =>
    simp only [List.foldl_cons]
    exact ih _

/-- After the `range` loop over entries with distinct keys, a key of the entries
is mapped to the state built from its value and any other key is as before. -/
theorem rangeLoop_lookup (entries : List (Sigma fun _ : Address => Address))
    (hnd : entries.NodupKeys) (f : FakeWorkerPorcelainAPI) (a : Address) :
    (entries.foldl
      (fun f e => { f with stateView := { f.stateView with
        Miners := setMiner f.stateView.Miners e.1 e.2 } }) f).stateView.Miners.lookup a
      = match entries.dlookup a with
        | some v =>
          some { Owner := v, Worker := v, ClaimedPower := 0, PledgeRequirement := 0,
                 PledgeBalance := 0 }
        | none => f.stateView.Miners.lookup a := by
  induction entries generalizing f with
  | nil => rfl
  | cons e rest ih =>
    obtain ⟨hnotin, hrest⟩ := List.nodupKeys_cons.mp hnd
    simp only [List.foldl_cons]
    rw [ih hrest]
    by_cases h : a = e.1
    · subst h
      have hnone : List.dlookup e.1 rest = none := List.dlookup_eq_none.mpr hnotin
      have hhead : List.dlookup e.1 (e :: rest) = some e.2 := by
        cases e with
        | mk k v => exact List.dlookup_cons_eq rest k v
      rw [hnone, hhead]
      simp only [setMiner_lookup, if_true]
    · rw [List.dlookup_cons_ne rest e h]
      cases List.dlookup a rest with
      | some v => rfl
      | none => simp only [setMiner_lookup, h, if_false]

/-- C4: `PowerStateView` is a function of nothing but the receiver's state view:
it returns that state view and a nil error for every head, it leaves the
receiver (block time, state view, randomness source) as it was, and so a second
call with the same head, or with any other, returns the identical view. -/
theorem PowerStateView_pure (t : FakeWorkerPorcelainAPI) (head other : TipSetKey) :
    (t.PowerStateView head).2 = (t.stateView, none) ∧
    (t.PowerStateView head).1 = t ∧
    ((t.PowerStateView head).1.PowerStateView head).2 = (t.PowerStateView head).2 ∧
    ((t.PowerStateView head).1.PowerStateView head).1 = t ∧
    (t.PowerStateView other).2 = (t.PowerStateView head).2 :=
  ⟨rfl, rfl, rfl, rfl, rfl⟩

/-- C7: for `totalPower = 2^63`, a `uint64`, the state view built by
`NewFakeWorkerPorcelainAPI` has the negative network power `-2^63`, not
`totalPower`: the conversion `int64(totalPower)` wraps around. -/
theorem NewFakeWorkerPorcelainAPI_negative_power :
    (NewFakeWorkerPorcelainAPI 0 (2 ^ 63) ∅).stateView.NetworkPower
      = -9223372036854775808 ∧
    (NewFakeWorkerPorcelainAPI 0 (2 ^ 63) ∅).stateView.NetworkPower
      ≠ ((2 ^ 63 : Nat) : Int) := by
  decide

/-- The network power of the built state view is the `int64` reading of
`totalPower`, which is `totalPower` itself below `2^63`. -/
theorem NewFakeWorkerPorcelainAPI_power (rnd : ChainRandomness) (totalPower : Nat)
    (minerToWorker : AddrMap Address) :
    (NewFakeWorkerPorcelainAPI rnd totalPower minerToWorker).stateView.NetworkPower
      = int64OfUint64 totalPower ∧
    (totalPower < 2 ^ 63 →
      (NewFakeWorkerPorcelainAPI rnd totalPower minerToWorker).stateView.NetworkPower
        = (totalPower : Int)) := by
  have h1 : (NewFakeWorkerPorcelainAPI rnd totalPower minerToWorker).stateView.NetworkPower
      = int64OfUint64 totalPower := by
    unfold NewFakeWorkerPorcelainAPI
    exact (rangeLoop_frame minerToWorker.entries _).2.1
  refine ⟨h1, fun hlt => ?_⟩
  rw [h1]
  unfold int64OfUint64
  have hmod : totalPower % 2 ^ 64 = totalPower := Nat.mod_eq_of_lt (by omega)
  rw [hmod, if_pos hlt]

/-- The miners of the built state view are the keys of `minerToWorker`, each with
the mapped worker as owner and worker and with zero power and pledges. -/
theorem NewFakeWorkerPorcelainAPI_miners (rnd : ChainRandomness) (totalPower : Nat)
    (minerToWorker : AddrMap Address) (a : Address) :
    (NewFakeWorkerPorcelainAPI rnd totalPower minerToWorker).stateView.Miners.lookup a
      = (minerToWorker.lookup a).map (fun v =>
          { Owner := v, Worker := v, ClaimedPower := 0, PledgeRequirement := 0,
            PledgeBalance := 0 }) := by
  unfold NewFakeWorkerPorcelainAPI
  rw [rangeLoop_lookup minerToWorker.entries minerToWorker.nodupKeys]
  show _ = Option.map _ (List.dlookup a minerToWorker.entries)
  cases List.dlookup a minerToWorker.entries with
  | some v => rfl
  | none => exact AList.lookup_empty a

end TestHelpers

/-! ## Properties of `encoding/gen/encoding_gen.go` -/

namespace Gen

/-- On a non-empty name `nameIsExported` returns. -/
theorem nameIsExported_returns (name : String) (h : name ≠ "") :
    ∃ b, nameIsExported name = Run.returned b := by
  unfold nameIsExported
  cases hd : name.data with
  | nil =>
    exfalso
    apply h
    cases name with
    | mk data =>
      simp only at hd
      subst hd
      rfl
  | cons c rest => exact ⟨_, rfl⟩

/-- What the field loop appends for one exported field is the described entry. -/
theorem parseFields_cons_exported (pkg : String) (f : String × RType)
    (rest : List (String × RType)) (out : List FieldInfo)
    (h : nameIsExported f.1 = Run.returned true) :
    parseFields pkg (f :: rest) out = parseFields pkg rest (out ++ [describedField pkg f]) := by
  obtain ⟨name, ty⟩ := f
  simp only at h
  conv => lhs; unfold parseFields
  simp only [h]
  cases ty with
  | plain n k => cases k <;> simp [RType.Kind, describedField, PlainKind.toKind]
  | ptr n e => simp [RType.Kind, RType.Elem, describedField]
  | struct n fs => simp [RType.Kind, describedField]

/-- The field loop skips a field whose name does not pass `nameIsExported`. -/
theorem parseFields_cons_skipped (pkg : String) (f : String × RType)
    (rest : List (String × RType)) (out : List FieldInfo)
    (h : nameIsExported f.1 = Run.returned false) :
    parseFields pkg (f :: rest) out = parseFields pkg rest out := by
  conv => lhs; unfold parseFields
  simp only [h]

/-- On fields with non-empty names the field loop returns the described list,
appended to the fields collected before. -/
theorem parseFields_eq (pkg : String) (fields : List (String × RType))
    (out : List FieldInfo) (hnames : ∀ f ∈ fields, f.1 ≠ "") :
    parseFields pkg fields out = Run.returned (out ++ describedFields pkg fields) := by
  induction fields generalizing out with
  | nil => simp [parseFields, describedFields]
  | cons f rest ih =>
    have hrest : ∀ g ∈ rest, g.1 ≠ "" := fun g hg => hnames g (List.mem_cons_of_mem _ hg)
    obtain ⟨b, hb⟩ := nameIsExported_returns f.1 (hnames f (List.mem_cons_self _ _))
    cases b with
    | true =>
      rw [parseFields_cons_exported pkg f rest out hb, ih _ hrest]
      simp [describedFields, hb]
    | false =>
      rw [parseFields_cons_skipped pkg f rest out hb, ih _ hrest]
      simp [describedFields, hb]

/-- What `parseTypeInfo` does once the inspected type `t` is known to be non-nil:
the same for a plain value of type `t` and for a `TypeOpt` whose `Value` has
type `t`. -/
theorem parseTypeInfo_of_type (pkg : String) (t : RType) :
    (∀ data, parseTypeInfo pkg (Iface.other t data) =
      match t.Kind with
      | Kind.Struct =>
        match parseFields pkg t.Fields [] with
        | Run.panicked => Run.panicked
        | Run.returned fields =>
          Run.returned
            ({ Name := t.Name, Type_ := none, Fields := fields, Options := TypeOpt.zero }, none)
      | _ =>
        Run.returned
          ({ Name := t.Name, Type_ := none, Fields := [], Options := TypeOpt.zero },
            some (GenError.unsupportedType Iface.nil))) ∧
    (∀ opt : TypeOpt, TypeOf opt.Value = some t →
      parseTypeInfo pkg (Iface.typeOpt opt) = parseTypeInfo pkg (Iface.other t 0)) := by
  constructor
  · intro data
    rfl
  · intro opt h
    simp only [parseTypeInfo, h]
    rfl

/-- C5: the `TypeOpt` a caller passes does not reach the generator, and neither
does the instance: for `TypeOpt{Value: Foo{}, Mode: NewTypeStructMode,
GenerateEncode: true, GenerateDecode: true, RegisterType: true}` and for the
plain instance `Foo{}` of `type Foo struct { A int; B *Bar }`, `parseTypeInfo`
returns the name and fields of `Foo` with `Options` the zero `TypeOpt` (nil
`Value`, `Mode` 0, all flags false), and `WriteToFile` hands that to the
generator. -/
theorem parseTypeInfo_drops_options :
    parseTypeInfo "types"
        (Iface.typeOpt
          { Value := Iface.other
              (RType.struct "Foo"
                [("A", RType.plain "int" PlainKind.Int),
                 ("B", RType.ptr "" (RType.struct "Bar" []))]) 0,
            Mode := NewTypeStructMode, GenerateEncode := true, GenerateDecode := true,
            RegisterType := true })
      = Run.returned
          ({ Name := "Foo", Type_ := none,
             Fields :=
               [{ Name := "t.A", Pointer := false, Type_ := RType.plain "int" PlainKind.Int,
                  Pkg := "types", IterLabel := "" },
                { Name := "t.B", Pointer := true, Type_ := RType.struct "Bar" [],
                  Pkg := "types", IterLabel := "" }],
             Options :=
               { Value := Iface.nil, Mode := 0, GenerateEncode := false,
                 GenerateDecode := false, RegisterType := false } }, none) ∧
    parseTypeInfo "types"
        (Iface.other
          (RType.struct "Foo"
            [("A", RType.plain "int" PlainKind.Int),
             ("B", RType.ptr "" (RType.struct "Bar" []))]) 0)
      = Run.returned
          ({ Name := "Foo", Type_ := none,
             Fields :=
               [{ Name := "t.A", Pointer := false, Type_ := RType.plain "int" PlainKind.Int,
                  Pkg := "types", IterLabel := "" },
                { Name := "t.B", Pointer := true, Type_ := RType.struct "Bar" [],
                  Pkg := "types", IterLabel := "" }],
             Options :=
               { Value := Iface.nil, Mode := 0, GenerateEncode := false,
                 GenerateDecode := false, RegisterType := false } }, none) ∧
    parseAll "types"
        [Iface.typeOpt
          { Value := Iface.other (RType.struct "Bar" []) 0,
            Mode := NewTypeStructMode, GenerateEncode := true, GenerateDecode := false,
            RegisterType := false }] []
      = Run.returned
          ([{ Name := "Bar", Type_ := none, Fields := [], Options := TypeOpt.zero }], none) := by
  refine ⟨?_, ?_, ?_⟩ <;> rfl

/-- Whatever `parseTypeInfo` is given, the `Options` of the `TypeInfo` it returns
is the zero `TypeOpt`. -/
theorem parseTypeInfo_options_zero (pkg : String) (i : Iface) (ti : TypeInfo)
    (err : Option GenError) (h : parseTypeInfo pkg i = Run.returned (ti, err)) :
    ti.Options = TypeOpt.zero := by
  unfold parseTypeInfo at h
  cases i with
  | nil => simp [TypeOf] at h
  | other t data =>
    simp only [TypeOf] at h
    split at h
    · split at h
      · cases h
      · cases h; rfl
    · cases h; rfl
  | typeOpt opt =>
    simp only at h
    cases ht : TypeOf opt.Value with
    | none => simp [ht] at h
    | some t =>
      simp only [ht] at h
      split at h
      · split at h
        · cases h
        · cases h; rfl
      · cases h; rfl

/-- C8: for a struct type with (as for every Go struct) non-empty field names,
reached as the type of a plain value or of the `Value` of a `TypeOpt`,
`parseTypeInfo` succeeds with `Name` the name of the type and `Fields` one entry
per field whose name passes `nameIsExported`, in declaration order, each with
`"t."` before the field name, the package `pkg`, and, for a pointer field,
`Pointer` set and the pointed-to type; for a type of any other kind, a pointer
to a struct included, it returns an error. -/
theorem parseTypeInfo_struct_fields (pkg : String) (name : String)
    (fields : List (String × RType)) (hnames : ∀ f ∈ fields, f.1 ≠ "") :
    (∀ i, ((∃ data, i = Iface.other (RType.struct name fields) data) ∨
          (∃ opt : TypeOpt, i = Iface.typeOpt opt ∧
            TypeOf opt.Value = some (RType.struct name fields))) →
      ∃ ti, parseTypeInfo pkg i = Run.returned (ti, none) ∧ ti.Name = name ∧
        ti.Fields = (fields.filter
            (fun f => decide (nameIsExported f.1 = Run.returned true))).map
            (fun f => { Name := "t." ++ f.1, Pointer := decide (f.2.Kind = Kind.Ptr),
                        Type_ := (match f.2 with
                          | RType.ptr _ elem => elem
                          | ft => ft),
                        Pkg := pkg, IterLabel := "" })) ∧
    (∀ i t, t.Kind ≠ Kind.Struct →
      ((∃ data, i = Iface.other t data) ∨
        (∃ opt : TypeOpt, i = Iface.typeOpt opt ∧ TypeOf opt.Value = some t)) →
      ∃ ti err, parseTypeInfo pkg i = Run.returned (ti, some err)) := by
  have hdesc : ∀ f : String × RType, describedField pkg f =
      { Name := "t." ++ f.1, Pointer := decide (f.2.Kind = Kind.Ptr),
        Type_ := (match f.2 with
          | RType.ptr _ elem => elem
          | ft => ft),
        Pkg := pkg, IterLabel := "" } := by
    intro f
    obtain ⟨n, ty⟩ := f
    cases ty with
    | plain m k => cases k <;> simp [describedField, RType.Kind, PlainKind.toKind]
    | ptr m e => simp [describedField, RType.Kind]
    | struct m fs => simp [describedField, RType.Kind]
  have hplain : ∀ t : RType, t.Kind ≠ Kind.Struct →
      parseTypeInfo pkg (Iface.other t 0) =
        Run.returned
          ({ Name := t.Name, Type_ := none, Fields := [], Options := TypeOpt.zero },
            some (GenError.unsupportedType Iface.nil)) := by
    intro t ht
    cases t with
    | plain m k => cases k <;> rfl
    | ptr m e => rfl
    | struct m fs => exact absurd rfl ht
  have hstruct : parseTypeInfo pkg (Iface.other (RType.struct name fields) 0) =
      Run.returned
        ({ Name := name, Type_ := none, Fields := describedFields pkg fields,
           Options := TypeOpt.zero }, none) := by
    rw [(parseTypeInfo_of_type pkg (RType.struct name fields)).1 0]
    simp only [RType.Kind, RType.Fields, RType.Name]
    rw [parseFields_eq pkg fields [] hnames]
    simp
  constructor
  · intro i hi
    have hred : parseTypeInfo pkg i = parseTypeInfo pkg (Iface.other (RType.struct name fields) 0) := by
      rcases hi with ⟨data, rfl⟩ | ⟨opt, rfl, hopt⟩
      · rfl
      · exact (parseTypeInfo_of_type pkg _).2 opt hopt
    refine ⟨_, hred.trans hstruct, rfl, ?_⟩
    simp only [describedFields]
    exact List.map_congr_left (fun f _ => hdesc f)
  · intro i t ht hi
    have hred : parseTypeInfo pkg i = parseTypeInfo pkg (Iface.other t 0) := by
      rcases hi with ⟨data, rfl⟩ | ⟨opt, rfl, hopt⟩
      · rfl
      · exact (parseTypeInfo_of_type pkg _).2 opt hopt
    exact ⟨_, _, hred.trans (hplain t ht)⟩

/-- C8 at `type Foo struct { A int; b string; C *Bar }` in package `types`: the
instance is parsed into the fields `t.A` and `t.C`, and a pointer to `Foo` is
refused. -/
theorem parseTypeInfo_struct_fields_witness :
    (∀ f ∈ [("A", RType.plain "int" PlainKind.Int), ("b", RType.plain "string" PlainKind.String),
            ("C", RType.ptr "" (RType.struct "Bar" []))], f.1 ≠ "") ∧
    (∃ ti, parseTypeInfo "types"
        (Iface.other
          (RType.struct "Foo"
            [("A", RType.plain "int" PlainKind.Int), ("b", RType.plain "string" PlainKind.String),
             ("C", RType.ptr "" (RType.struct "Bar" []))]) 7) = Run.returned (ti, none) ∧
      ti.Name = "Foo" ∧
      ti.Fields =
        ([("A", RType.plain "int" PlainKind.Int), ("b", RType.plain "string" PlainKind.String),
          ("C", RType.ptr "" (RType.struct "Bar" []))].filter
            (fun f => decide (nameIsExported f.1 = Run.returned true))).map
            (fun f => { Name := "t." ++ f.1, Pointer := decide (f.2.Kind = Kind.Ptr),
                        Type_ := (match f.2 with
                          | RType.ptr _ elem => elem
                          | ft => ft),
                        Pkg := "types", IterLabel := "" })) ∧
    (∃ ti err, parseTypeInfo "types"
        (Iface.other (RType.ptr "" (RType.struct "Foo" [])) 7) = Run.returned (ti, some err)) :=
  ⟨by simp,
   (parseTypeInfo_struct_fields "types" "Foo"
      [("A", RType.plain "int" PlainKind.Int), ("b", RType.plain "string" PlainKind.String),
       ("C", RType.ptr "" (RType.struct "Bar" []))] (by simp)).1 _ (Or.inl ⟨7, rfl⟩),
   (parseTypeInfo_struct_fields "types" "Foo"
      [("A", RType.plain "int" PlainKind.Int), ("b", RType.plain "string" PlainKind.String),
       ("C", RType.ptr "" (RType.struct "Bar" []))] (by simp)).2 _
      (RType.ptr "" (RType.struct "Foo" [])) (by decide) (Or.inl ⟨7, rfl⟩)⟩

/-- The instance of `type Foo struct { A int; b string; C *Bar }`, evaluated. -/
theorem parseTypeInfo_Foo :
    parseTypeInfo "types"
        (Iface.other
          (RType.struct "Foo"
            [("A", RType.plain "int" PlainKind.Int), ("b", RType.plain "string" PlainKind.String),
             ("C", RType.ptr "" (RType.struct "Bar" []))]) 7)
      = Run.returned
          ({ Name := "Foo", Type_ := none,
             Fields :=
               [{ Name := "t.A", Pointer := false, Type_ := RType.plain "int" PlainKind.Int,
                  Pkg := "types", IterLabel := "" },
                { Name := "t.C", Pointer := true, Type_ := RType.struct "Bar" [],
                  Pkg := "types", IterLabel := "" }],
             Options := TypeOpt.zero }, none) ∧
    parseTypeInfo "types" Iface.nil = Run.panicked ∧
    nameIsExported "A" = Run.returned true ∧
    nameIsExported "b" = Run.returned false ∧
    nameIsExported "_x" = Run.returned true ∧
    nameIsExported "été" = Run.returned false ∧
    nameIsExported "" = Run.panicked := by
  refine ⟨rfl, rfl, ?_, ?_, ?_, ?_, ?_⟩ <;> decide

end Gen

/-! ## Properties of `internal/app/go-filecoin/node/test/setup.go` -/

namespace NodeTest

/-- The connection loop makes a call for `(i, j)` exactly when `j < i < len`. -/
theorem mem_connectAll (len i j : Nat) : (i, j) ∈ connectAll len ↔ j < i ∧ i < len := by
  unfold connectAll
  simp only [List.mem_flatMap, List.mem_map, List.mem_range, Prod.mk.injEq]
  constructor
  · rintro ⟨a, ha, b, hb, rfl, rfl⟩
    exact ⟨hb, ha⟩
  · rintro ⟨hji, hi⟩
    exact ⟨i, hi, j, hji, rfl, rfl⟩

/-- The connection loop never makes the same call twice. -/
theorem nodup_connectAll (len : Nat) : (connectAll len).Nodup := by
  unfold connectAll
  rw [List.nodup_flatMap]
  constructor
  · intro i _
    apply List.Nodup.map _ (List.nodup_range i)
    intro a b hab
    exact (Prod.mk.inj hab).2
  · apply List.Pairwise.imp _ (List.nodup_range len)
    intro a b hne
    show List.Disjoint _ _
    intro c hca hcb
    obtain ⟨x, _, hx⟩ := List.mem_map.mp hca
    obtain ⟨y, _, hy⟩ := List.mem_map.mp hcb
    apply hne
    rw [← hy] at hx
    exact (Prod.mk.inj hx).1

/-- A call that the connection loop makes is counted once. -/
theorem count_connectAll (len i j : Nat) (h : (i, j) ∈ connectAll len) :
    (connectAll len).count (i, j) = 1 := by
  have key : ∀ l : List (Nat × Nat), l.Nodup → (i, j) ∈ l → l.count (i, j) = 1 := by
    intro l
    induction l with
    | nil => intro _ hm; cases hm
    | cons c rest ih =>
      intro hnd hm
      obtain ⟨hnotin, hrest⟩ := List.nodup_cons.mp hnd
      rw [List.count_cons]
      rcases List.mem_cons.mp hm with rfl | hr
      · rw [List.count_eq_zero_of_not_mem hnotin]
        simp
      · have hne : c ≠ (i, j) := fun he => hnotin (he ▸ hr)
        rw [ih hrest hr]
        simp [hne]
  exact key _ (nodup_connectAll len) h

/-- The loop creating the additional nodes, run for its first `k` rounds on a
slice of `1 + n` nodes headed by the bootstrap miner, does not panic, keeps the
length and the head, and has filled the indices `1` to `k`. -/
theorem createAdditional_rounds (n : Nat) (hn : 1 + n < 2 ^ uintBits) (nodes : List Node)
    (hlen : nodes.length = 1 + n) (hhead : nodes[0]? = some Node.bootstrapMiner)
    (k : Nat) (hk : k ≤ n) :
    ∃ ns, createAdditional k nodes = Run.returned ns ∧ ns.length = 1 + n ∧
      ns[0]? = some Node.bootstrapMiner ∧
      ∀ j, 1 ≤ j → j ≤ k → ns[j]? = some (Node.additional (intOfUint j)) := by
  induction k with
  | zero =>
    refine ⟨nodes, rfl, hlen, hhead, ?_⟩
    intro j h1 h0
    omega
  | succ k ih =>
    obtain ⟨ns, hrun, hl, hh, hfill⟩ := ih (by omega)
    have hmod : (k + 1) % 2 ^ uintBits = k + 1 := Nat.mod_eq_of_lt (by omega)
    have hin : k + 1 < ns.length := by omega
    refine ⟨ns.set (k + 1) (Node.additional (intOfUint (k + 1))), ?_, ?_, ?_, ?_⟩
    · unfold createAdditional at hrun ⊢
      rw [List.range_succ, List.foldl_append, hrun]
      simp only [List.foldl_cons, List.foldl_nil, setNode, hmod, hin, if_true]
    · simp only [List.length_set, hl]
    · rw [List.getElem?_set_ne (by omega)]
      exact hh
    · intro j h1 hj
      by_cases hjk : j = k + 1
      · subst hjk
        simp [hin]
      · rw [List.getElem?_set_ne (by omega)]
        exact hfill j h1 (by omega)

/-- C6, the claim as stated fails: with `additionalNodes = 2^63 - 1` the sum
`1 + additionalNodes = 2^63` does not overflow a `uint`, and with
`additionalNodes = 2^61` it is far from overflowing, yet in both cases
`make([]*node.Node, 1+additionalNodes)` panics, on any target whose allocation
limit is at most `2^64` bytes, and no slice of nodes is returned. -/
theorem MustCreateNodesWithBootstrap_make_panics :
    1 + (2 ^ 63 - 1) < 2 ^ uintBits ∧
    MustCreateNodesWithBootstrap (2 ^ 64) (2 ^ 63 - 1) = Run.panicked ∧
    1 + 2 ^ 61 < 2 ^ uintBits ∧
    MustCreateNodesWithBootstrap (2 ^ 64) (2 ^ 61) = Run.panicked ∧
    MustCreateNodesWithBootstrap (2 ^ 48) (2 ^ 61) = Run.panicked := by
  decide

/-- C6, amended: when `make` accepts the length `1 + additionalNodes` (it fits an
`int` and that many pointers do not exceed the allocation limit of the
run-time), `MustCreateNodesWithBootstrap` returns `1 + additionalNodes` nodes,
the bootstrap miner at index 0 and the additional nodes after it, and its
connection loop calls `ConnectNodes` exactly once for every unordered pair of
distinct indices of that slice (once as `(i, j)` or `(j, i)`, never both), never
for a node with itself, and only with indices of the slice. -/
theorem MustCreateNodesWithBootstrap_connects_all (maxAlloc : Nat) (additionalNodes : Nat)
    (hint : 1 + additionalNodes < 2 ^ (uintBits - 1))
    (halloc : (1 + additionalNodes) * ptrSize ≤ maxAlloc) :
    ∃ s, MustCreateNodesWithBootstrap maxAlloc additionalNodes = Run.returned s ∧
      s.nodes.length = 1 + additionalNodes ∧
      s.nodes[0]? = some Node.bootstrapMiner ∧
      (∀ k, 1 ≤ k → k ≤ additionalNodes →
        s.nodes[k]? = some (Node.additional (intOfUint k)) ∧ intOfUint k = (k : Int)) ∧
      (∀ i j, i < s.nodes.length → j < s.nodes.length → i ≠ j →
        s.connects.count (i, j) + s.connects.count (j, i) = 1) ∧
      (∀ i, (i, i) ∉ s.connects) ∧
      (∀ c ∈ s.connects, c.1 < s.nodes.length ∧ c.2 < s.nodes.length) := by
  have hbits : (2 : Nat) ^ (uintBits - 1) < 2 ^ uintBits := by decide
  have h : 1 + additionalNodes < 2 ^ uintBits := Nat.lt_trans hint hbits
  have hmod : additionalNodes % 2 ^ uintBits = additionalNodes :=
    Nat.mod_eq_of_lt (by omega)
  have hmod1 : (1 + additionalNodes) % 2 ^ uintBits = 1 + additionalNodes :=
    Nat.mod_eq_of_lt h
  have hinit : setNode (List.replicate (1 + additionalNodes) Node.unset) 0 Node.bootstrapMiner
      = Run.returned ((List.replicate (1 + additionalNodes) Node.unset).set 0
          Node.bootstrapMiner) := by
    simp [setNode]
  obtain ⟨ns, hrun, hl, hh, hfill⟩ :=
    createAdditional_rounds additionalNodes h
      ((List.replicate (1 + additionalNodes) Node.unset).set 0 Node.bootstrapMiner)
      (by simp) (by simp) additionalNodes (Nat.le_refl _)
  have hmake : makeNodes maxAlloc (1 + additionalNodes)
      = Run.returned (List.replicate (1 + additionalNodes) Node.unset) := by
    unfold makeNodes
    rw [if_pos ⟨hint, halloc⟩]
  have hkey : ∀ k, k ≤ additionalNodes → intOfUint k = (k : Int) := by
    intro k hk
    have hk1 : k < 2 ^ (uintBits - 1) := by omega
    have hk2 : k % 2 ^ uintBits = k := Nat.mod_eq_of_lt (by omega)
    unfold intOfUint
    rw [hk2, if_pos hk1]
  refine ⟨{ nodes := ns, connects := connectAll ns.length }, ?_, hl, hh,
    fun k h1 hk => ⟨hfill k h1 hk, hkey k hk⟩, ?_, ?_, ?_⟩
  · unfold MustCreateNodesWithBootstrap
    simp only [hmod, hmod1, hmake, hinit, hrun]
  · intro i j hi hj hij
    have hi2 : i < ns.length := hi
    have hj2 : j < ns.length := hj
    show (connectAll ns.length).count (i, j) + (connectAll ns.length).count (j, i) = 1
    rcases Nat.lt_or_gt_of_ne hij with hlt | hgt
    · have h1 : (connectAll ns.length).count (i, j) = 0 :=
        List.count_eq_zero_of_not_mem
          (fun hm => by have := (mem_connectAll ns.length i j).mp hm; omega)
      have h2 : (connectAll ns.length).count (j, i) = 1 :=
        count_connectAll ns.length j i ((mem_connectAll ns.length j i).mpr ⟨hlt, hj2⟩)
      omega
    · have h1 : (connectAll ns.length).count (j, i) = 0 :=
        List.count_eq_zero_of_not_mem
          (fun hm => by have := (mem_connectAll ns.length j i).mp hm; omega)
      have h2 : (connectAll ns.length).count (i, j) = 1 :=
        count_connectAll ns.length i j ((mem_connectAll ns.length i j).mpr ⟨hgt, hi2⟩)
      omega
  · intro i hm
    have := (mem_connectAll ns.length i i).mp hm
    omega
  · intro c hc
    obtain ⟨i, j⟩ := c
    have hij := (mem_connectAll ns.length i j).mp hc
    exact ⟨hij.2, Nat.lt_trans hij.1 hij.2⟩

/-- C6, amended, at `additionalNodes = 2` on linux/amd64: three nodes, three
connections. -/
theorem MustCreateNodesWithBootstrap_connects_all_witness :
    1 + 2 < 2 ^ (uintBits - 1) ∧ (1 + 2) * ptrSize ≤ 2 ^ 48 ∧
    ∃ s, MustCreateNodesWithBootstrap (2 ^ 48) 2 = Run.returned s ∧
      s.nodes.length = 1 + 2 ∧
      s.nodes[0]? = some Node.bootstrapMiner ∧
      (∀ k, 1 ≤ k → k ≤ 2 →
        s.nodes[k]? = some (Node.additional (intOfUint k)) ∧ intOfUint k = (k : Int)) ∧
      (∀ i j, i < s.nodes.length → j < s.nodes.length → i ≠ j →
        s.connects.count (i, j) + s.connects.count (j, i) = 1) ∧
      (∀ i, (i, i) ∉ s.connects) ∧
      (∀ c ∈ s.connects, c.1 < s.nodes.length ∧ c.2 < s.nodes.length) :=
  ⟨by decide, by decide,
    MustCreateNodesWithBootstrap_connects_all (2 ^ 48) 2 (by decide) (by decide)⟩

/-- The setup on two additional nodes, evaluated; and the overflowing length
`1 + (2^64 - 1) = 0`, where the assignment `nodes[0] = bootstrapMiner` panics. -/
theorem MustCreateNodesWithBootstrap_two :
    MustCreateNodesWithBootstrap (2 ^ 48) 2 =
      Run.returned
        { nodes := [Node.bootstrapMiner, Node.additional 1, Node.additional 2],
          connects := [(1, 0), (2, 0), (2, 1)] } ∧
    MustCreateNodesWithBootstrap (2 ^ 48) (2 ^ 64 - 1) = Run.panicked := by
  decide

/-- C10: a command that reports its failure through `CloseWithError` and returns
nil from `Run` makes `RunCommandInProcess` return `(nil, nil)`: the error stored
in the emitter is detected, but the variable returned is the nil `err` of
`cmd.Run`. -/
theorem RunCommandInProcess_loses_emitter_error :
    RunCommandInProcess
        { requestErr := none,
          emits := [EmitterCall.Emit (some 5), EmitterCall.CloseWithError (some "boom")],
          runErr := none }
      = (none, none) := by
  decide

/-- The error `RunCommandInProcess` returns is that of the request construction
or, when there is none, that of `cmd.Run`; an error stored in the emitter never
shows in it. -/
theorem RunCommandInProcess_error (cmd : Command) :
    (RunCommandInProcess cmd).2 =
      match cmd.requestErr with
      | some e => some e
      | none => cmd.runErr := by
  unfold RunCommandInProcess
  cases hreq : cmd.requestErr with
  | some e => rfl
  | none =>
    simp only
    cases hrun : cmd.runErr with
    | some e => simp
    | none =>
      simp only [ne_eq, not_true_eq_false, if_false]
      split <;> rfl

end NodeTest

end GoFilecoin
